import Mathlib

/-!
Shallow embedding of the consumption-ledger and energy-model core of
`src/lightCal.py` (Streamlit household energy tracker).

Modelling conventions:
* `datetime.now()` is modelled as a natural number of minutes since the
  epoch (1970-01-01, a Thursday); `strftime("%Y-%m-%d")` depends only on
  the calendar day `t / 1440` and is injective and strictly monotone on
  day numbers, so the date string is modelled by the constructor
  `Value.date` applied to the day number, and `strftime("%A")` by a
  seven-entry name table indexed by day number mod 7.
* Python floats are modelled as exact rationals (`ℚ`); decimal literals
  such as `0.2` are exact in `ℚ`.  Python's `round(x, 2)` rounds half to
  even, modelled by `round2`.
* A MongoDB document is an association list of field name to `Value`;
  a collection is a list of documents.  `insert_one` appends a document
  carrying a fresh `_id`; `update_one(filter, {"$set": data})` rewrites
  the first document matching the filter, replacing exactly the fields
  named in `data` and keeping every other field (including `_id`).
* The `st.error` calls are side effects invisible in the return value;
  for `get_user_consumption_data` the displayed-error side channel is
  kept as a boolean alongside the returned list, and the exception /
  missing-connection paths are modelled by the flags `dbConnected` and
  `findFails`.
-/

namespace EnergyTracker

/-- Minutes per calendar day. -/
def minutesPerDay : Nat := 1440

/-- Calendar day number of a time instant (minutes since epoch). -/
def dayOf (t : Nat) : Nat := t / minutesPerDay

/-- Weekday names; epoch day 0 (1970-01-01) was a Thursday. -/
def dayNames : List String :=
  ["Thursday", "Friday", "Saturday", "Sunday", "Monday", "Tuesday", "Wednesday"]

/-- Weekday name, `strftime("%A")`, of a time instant. -/
def dayName (t : Nat) : String := dayNames.getD (dayOf t % 7) ""

/-- A BSON-like value stored in a document field. -/
inductive Value where
  | str : String → Value
  | int : Int → Value
  | rat : ℚ → Value
  | time : Nat → Value
  | date : Nat → Value
  | dict : List (String × Int) → Value
deriving DecidableEq

/-- A MongoDB document: an association list of field name to value. -/
abbrev Doc := List (String × Value)

/-- Field access: the value at the first occurrence of a key. -/
def Doc.get : Doc → String → Option Value
  | [], _ => none
  | p :: rest, k => if p.1 = k then some p.2 else Doc.get rest k

/-- The list of field names of a document. -/
def Doc.keys (d : Doc) : List String := d.map Prod.fst

/-- Replace the value at every occurrence of a key (no insertion). -/
def replaceKey : Doc → String → Value → Doc
  | [], _, _ => []
  | p :: rest, k, v => (if p.1 = k then (k, v) else p) :: replaceKey rest k v

/-- Whether a document has a field with the given key. -/
def hasKey (d : Doc) (k : String) : Bool := d.any (fun p => p.1 == k)

/-- MongoDB `$set` of a single field: replace in place if present,
append otherwise. -/
def setField (d : Doc) (k : String) (v : Value) : Doc :=
  if hasKey d k then replaceKey d k v else d ++ [(k, v)]

/-- MongoDB `$set` of a whole update document. -/
def applySet (d : Doc) (upd : Doc) : Doc :=
  upd.foldl (fun acc p => setField acc p.1 p.2) d

/-- MongoDB `update_one`: rewrite the first document satisfying the filter. -/
def updateFirst (p : Doc → Bool) (f : Doc → Doc) : List Doc → List Doc
  | [] => []
  | d :: rest => if p d then f d :: rest else d :: updateFirst p f rest

/-- The filter `{"username": u, "date": today}` used by
`save_consumption_data` and by the pre-submission existence check. -/
def matchesB (u : String) (day : Nat) (d : Doc) : Bool :=
  (Doc.get d "username" == some (Value.str u)) &&
    (Doc.get d "date" == some (Value.date day))

/-- Number of consumption records stored for a (username, date) pair. -/
def countFor (u : String) (day : Nat) (coll : List Doc) : Nat :=
  (coll.filter (matchesB u day)).length

/-- The fixed per-appliance rate table of `calculate_energy_consumption`
(kWh per unit per day). -/
def energy_rates : List (String × ℚ) :=
  [("lights", 0.2), ("fans", 0.2), ("tvs", 0.3),
   ("ac", 3.0), ("fridge", 3.1), ("washing_machine", 2.8)]

/-- Rate lookup (`appliance in energy_rates` followed by indexing). -/
def rateOf (k : String) : Option ℚ :=
  (energy_rates.find? (fun p => p.1 == k)).map Prod.snd

/-- Body of the loop of `calculate_energy_consumption`:
`if appliance in energy_rates: total += count * energy_rates[appliance]`. -/
def calcStep (total : ℚ) (p : String × Int) : ℚ :=
  match rateOf p.1 with
  | some r => total + (p.2 : ℚ) * r
  | none => total

/-- The function `calculate_energy_consumption`: weighted sum of the known appliance
counts; unknown keys are skipped, nothing is validated. -/
def calculate_energy_consumption (appliances : List (String × Int)) : ℚ :=
  appliances.foldl calcStep 0

/-- The fixed tariff (₹ per kWh) of `show_energy_input_form`. -/
def rate_per_unit : ℚ := 8

/-- Round half to even to an integer (Python `round` on exact values). -/
def roundHalfToEven (q : ℚ) : ℤ :=
  if q - ⌊q⌋ < 1 / 2 then ⌊q⌋
  else if 1 / 2 < q - ⌊q⌋ then ⌊q⌋ + 1
  else if ⌊q⌋ % 2 = 0 then ⌊q⌋ else ⌊q⌋ + 1

/-- Python `round(x, 2)`. -/
def round2 (q : ℚ) : ℚ := (roundHalfToEven (100 * q) : ℚ) / 100

/-- The appliance-count vector assembled by `show_energy_input_form`
(lines 444-451): the six fixed appliance kinds. -/
structure Appliances where
  lights : Int
  fans : Int
  tvs : Int
  ac : Int
  fridge : Int
  washing_machine : Int
deriving DecidableEq

/-- The dictionary passed to `calculate_energy_consumption` and
`save_consumption_data` by the input form. -/
def Appliances.toDict (a : Appliances) : List (String × Int) :=
  [("lights", a.lights), ("fans", a.fans), ("tvs", a.tvs),
   ("ac", a.ac), ("fridge", a.fridge), ("washing_machine", a.washing_machine)]

/-- The fixed enumerated appliance kinds of the rate table. -/
inductive ApplianceKind where
  | lights
  | fans
  | tvs
  | ac
  | fridge
  | washing_machine
deriving DecidableEq

/-- Pointwise sum of two appliance-count vectors. -/
def Appliances.add (x y : Appliances) : Appliances :=
  Appliances.mk (x.lights + y.lights) (x.fans + y.fans) (x.tvs + y.tvs)
    (x.ac + y.ac) (x.fridge + y.fridge) (x.washing_machine + y.washing_machine)

/-- Increase a single appliance count by an amount. -/
def Appliances.incr (x : Appliances) : ApplianceKind → Int → Appliances
  | ApplianceKind.lights, d =>
      Appliances.mk (x.lights + d) x.fans x.tvs x.ac x.fridge x.washing_machine
  | ApplianceKind.fans, d =>
      Appliances.mk x.lights (x.fans + d) x.tvs x.ac x.fridge x.washing_machine
  | ApplianceKind.tvs, d =>
      Appliances.mk x.lights x.fans (x.tvs + d) x.ac x.fridge x.washing_machine
  | ApplianceKind.ac, d =>
      Appliances.mk x.lights x.fans x.tvs (x.ac + d) x.fridge x.washing_machine
  | ApplianceKind.fridge, d =>
      Appliances.mk x.lights x.fans x.tvs x.ac (x.fridge + d) x.washing_machine
  | ApplianceKind.washing_machine, d =>
      Appliances.mk x.lights x.fans x.tvs x.ac x.fridge (x.washing_machine + d)

/-- The `data` dictionary built by `save_consumption_data`
(lines 106-114): the fields written on every save. -/
def consumptionData (now : Nat) (username : String)
    (appliances : List (String × Int)) (total_energy cost : ℚ) : Doc :=
  [("username", Value.str username),
   ("date", Value.date (dayOf now)),
   ("day_of_week", Value.str (dayName now)),
   ("timestamp", Value.time now),
   ("appliances", Value.dict appliances),
   ("total_energy_kwh", Value.rat (round2 total_energy)),
   ("estimated_cost", Value.rat (round2 cost))]

/-- The function `save_consumption_data` (lines 100-134), success path: look up an
existing record for (username, today); if found, `$set` the new data on
the document with that record's `_id`; otherwise insert a new document
(MongoDB assigns `newId`).  On a missing connection or a raised
exception the collection is unchanged and `False` is returned, which no
claim depends on. -/
def save_consumption_data (now : Nat) (newId : Int) (username : String)
    (appliances : List (String × Int)) (total_energy cost : ℚ)
    (coll : List Doc) : List Doc :=
  let data := consumptionData now username appliances total_energy cost
  match coll.find? (matchesB username (dayOf now)) with
  | some existing =>
      updateFirst (fun d => Doc.get d "_id" == Doc.get existing "_id")
        (fun d => applySet d data) coll
  | none => coll ++ [("_id", Value.int newId) :: data]

/-- Timestamp of a document (0 if absent, never the case for records
written by `save_consumption_data`). -/
def tsOf (d : Doc) : Nat :=
  match Doc.get d "timestamp" with
  | some (Value.time t) => t
  | _ => 0

/-- Date (day number) of a document. -/
def dateOf (d : Doc) : Nat :=
  match Doc.get d "date" with
  | some (Value.date n) => n
  | _ => 0

/-- The MongoDB filter clause `{"timestamp": {"$gte": start}}`:
documents without a proper timestamp do not match. -/
def tsGe (start : Nat) (d : Doc) : Bool :=
  match Doc.get d "timestamp" with
  | some (Value.time t) => decide (start ≤ t)
  | _ => false

/-- What `get_user_consumption_data` gives back: the returned list plus
the invisible `st.error` side channel. -/
structure GetResult where
  records : List Doc
  errorShown : Bool
deriving DecidableEq

/-- The function `get_user_consumption_data` (lines 136-152): filter the collection
by username and by `timestamp ≥ now - days`, sort ascending by
timestamp; on a missing connection return `[]` silently, on a raised
exception display an error and return `[]`. -/
def get_user_consumption_data (now : Nat) (username : String) (days : Nat)
    (dbConnected findFails : Bool) (coll : List Doc) : GetResult :=
  if dbConnected = false then ⟨[], false⟩
  else
    let start_date := now - days * minutesPerDay
    if findFails then ⟨[], true⟩
    else
      ⟨(coll.filter (fun d =>
          (Doc.get d "username" == some (Value.str username)) && tsGe start_date d)).mergeSort
        (fun d1 d2 => decide (tsOf d1 ≤ tsOf d2)), false⟩

/-- A record exactly as written by a save at time 0 for user "a"; used
to exhibit the behaviour of `get_user_consumption_data` with window 0. -/
def todayRecordDoc : Doc :=
  ("_id", Value.int 1) :: consumptionData 0 "a" [("lights", 1)] 0.2 1.6

/-- A record exactly as written by a save at time 19999 for user "a";
used to exhibit the failure behaviour of `get_user_consumption_data`. -/
def windowRecordDoc : Doc :=
  ("_id", Value.int 1) :: consumptionData 19999 "a" [("lights", 1)] 0.2 1.6

/-! ### Association-list lemmas -/

theorem Doc.get_append (d1 d2 : Doc) (k : String) :
    Doc.get (d1 ++ d2) k = (Doc.get d1 k).orElse (fun _ => Doc.get d2 k) := by
  induction d1 with
  | nil => simp [Doc.get]
  | cons p rest ih => by_cases h : p.1 = k <;> simp [Doc.get, h, ih]

theorem get_eq_none_of_hasKey_eq_false (d : Doc) (k : String)
    (h : hasKey d k = false) : Doc.get d k = none := by
  induction d with
  | nil => rfl
  | cons p rest ih =>
    simp only [hasKey, List.any_cons, Bool.or_eq_false_iff, beq_eq_false_iff_ne] at h
    simp [Doc.get, h.1, ih h.2]

theorem get_replaceKey_self (d : Doc) (k : String) (v : Value)
    (h : hasKey d k = true) : Doc.get (replaceKey d k v) k = some v := by
  induction d with
  | nil => simp [hasKey] at h
  | cons p rest ih =>
    by_cases hp : p.1 = k
    · simp [replaceKey, hp, Doc.get]
    · have hr : hasKey rest k = true := by
        simp only [hasKey, List.any_cons, Bool.or_eq_true, beq_iff_eq] at h
        rcases h with h | h
        · exact absurd h hp
        · simpa [hasKey] using h
      simp [replaceKey, hp, Doc.get, ih hr]

theorem get_replaceKey_ne (d : Doc) (k : String) (v : Value) (k' : String)
    (h : k' ≠ k) : Doc.get (replaceKey d k v) k' = Doc.get d k' := by
  induction d with
  | nil => rfl
  | cons p rest ih =>
    by_cases hp : p.1 = k
    · simp [replaceKey, hp, Doc.get, Ne.symm h, ih]
    · simp [replaceKey, hp, Doc.get, ih]

theorem get_setField_self (d : Doc) (k : String) (v : Value) :
    Doc.get (setField d k v) k = some v := by
  unfold setField
  by_cases h : hasKey d k
  · rw [if_pos h]; exact get_replaceKey_self d k v h
  · rw [if_neg h, Doc.get_append,
      get_eq_none_of_hasKey_eq_false d k (Bool.eq_false_iff.mpr h)]
    simp [Doc.get]

theorem get_setField_ne (d : Doc) (k : String) (v : Value) (k' : String)
    (h : k' ≠ k) : Doc.get (setField d k v) k' = Doc.get d k' := by
  unfold setField
  by_cases hk : hasKey d k
  · rw [if_pos hk]; exact get_replaceKey_ne d k v k' h
  · rw [if_neg hk, Doc.get_append]
    cases hg : Doc.get d k' with
    | some v' => simp
    | none => simp [Doc.get, Ne.symm h]

theorem applySet_cons (d : Doc) (p : String × Value) (rest : Doc) :
    applySet d (p :: rest) = applySet (setField d p.1 p.2) rest := rfl

theorem get_applySet_of_notMem (d : Doc) (upd : Doc) (k : String)
    (h : k ∉ upd.map Prod.fst) : Doc.get (applySet d upd) k = Doc.get d k := by
  induction upd generalizing d with
  | nil => rfl
  | cons p rest ih =>
    simp only [List.map_cons, List.mem_cons] at h
    push_neg at h
    rw [applySet_cons, ih _ h.2, get_setField_ne _ _ _ _ h.1]

theorem get_applySet_of_mem (d : Doc) (upd : Doc) (k : String) (v : Value)
    (hnd : (upd.map Prod.fst).Nodup) (h : (k, v) ∈ upd) :
    Doc.get (applySet d upd) k = some v := by
  induction upd generalizing d with
  | nil => cases h
  | cons p rest ih =>
    simp only [List.map_cons, List.nodup_cons] at hnd
    rcases List.mem_cons.mp h with h | h
    · subst h
      rw [applySet_cons, get_applySet_of_notMem _ _ _ hnd.1, get_setField_self]
    · rw [applySet_cons]
      exact ih _ hnd.2 h

theorem keys_replaceKey (d : Doc) (k : String) (v : Value) :
    Doc.keys (replaceKey d k v) = Doc.keys d := by
  induction d with
  | nil => rfl
  | cons p rest ih =>
    simp only [Doc.keys] at ih ⊢
    by_cases hp : p.1 = k <;> simp [replaceKey, hp, ih]

theorem hasKey_iff_mem_keys (d : Doc) (k : String) :
    hasKey d k = true ↔ k ∈ Doc.keys d := by
  induction d with
  | nil => simp [hasKey, Doc.keys]
  | cons p rest ih =>
    simp only [Doc.keys, List.map_cons, List.mem_cons] at ih ⊢
    simp only [hasKey, List.any_cons, Bool.or_eq_true, beq_iff_eq]
    rw [eq_comm]
    simp only [hasKey] at ih
    rw [ih]

theorem keys_setField_of_hasKey (d : Doc) (k : String) (v : Value)
    (h : hasKey d k = true) : Doc.keys (setField d k v) = Doc.keys d := by
  unfold setField
  rw [if_pos h, keys_replaceKey]

theorem keys_applySet_of_subset (d : Doc) (upd : Doc)
    (h : ∀ k ∈ upd.map Prod.fst, k ∈ Doc.keys d) :
    Doc.keys (applySet d upd) = Doc.keys d := by
  induction upd generalizing d with
  | nil => rfl
  | cons p rest ih =>
    rw [applySet_cons]
    have hk : hasKey d p.1 = true :=
      (hasKey_iff_mem_keys d p.1).mpr (h p.1 (by simp))
    have hkeys : Doc.keys (setField d p.1 p.2) = Doc.keys d :=
      keys_setField_of_hasKey _ _ _ hk
    have hsub : ∀ k ∈ rest.map Prod.fst,
        k ∈ Doc.keys (setField d p.1 p.2) := by
      intro k hk'
      rw [hkeys]
      exact h k (by simp [hk'])
    rw [ih (setField d p.1 p.2) hsub, hkeys]

/-! ### updateFirst lemmas -/

theorem updateFirst_append_of_not (p : Doc → Bool) (f : Doc → Doc)
    (l1 l2 : List Doc) (h : ∀ d ∈ l1, p d = false) :
    updateFirst p f (l1 ++ l2) = l1 ++ updateFirst p f l2 := by
  induction l1 with
  | nil => rfl
  | cons d rest ih =>
    have hd := h d (List.mem_cons_self _ _)
    simp [updateFirst, hd, ih (fun x hx => h x (List.mem_cons_of_mem _ hx))]

theorem updateFirst_cons_of_true (p : Doc → Bool) (f : Doc → Doc) (d : Doc)
    (l : List Doc) (h : p d = true) : updateFirst p f (d :: l) = f d :: l := by
  simp [updateFirst, h]

theorem mem_updateFirst (p : Doc → Bool) (f : Doc → Doc) (l : List Doc)
    (x : Doc) (hx : x ∈ updateFirst p f l) : x ∈ l ∨ ∃ d ∈ l, x = f d := by
  induction l with
  | nil => cases hx
  | cons d rest ih =>
    by_cases hd : p d
    · rw [updateFirst_cons_of_true _ _ _ _ hd] at hx
      rcases List.mem_cons.mp hx with hx | hx
      · exact Or.inr ⟨d, List.mem_cons_self _ _, hx⟩
      · exact Or.inl (List.mem_cons_of_mem _ hx)
    · simp only [updateFirst, if_neg hd] at hx
      rcases List.mem_cons.mp hx with hx | hx
      · exact Or.inl (hx ▸ List.mem_cons_self _ _)
      · rcases ih hx with h | ⟨e, he, hxe⟩
        · exact Or.inl (List.mem_cons_of_mem _ h)
        · exact Or.inr ⟨e, List.mem_cons_of_mem _ he, hxe⟩

/-! ### Lemmas about the written record and its fields -/

theorem consumptionData_keys (now : Nat) (u : String)
    (a : List (String × Int)) (e c : ℚ) :
    (consumptionData now u a e c).map Prod.fst =
      ["username", "date", "day_of_week", "timestamp", "appliances",
       "total_energy_kwh", "estimated_cost"] := rfl

theorem consumptionData_keys_nodup (now : Nat) (u : String)
    (a : List (String × Int)) (e c : ℚ) :
    ((consumptionData now u a e c).map Prod.fst).Nodup := by
  rw [consumptionData_keys]; decide

theorem mem_consumptionData_username (now : Nat) (u : String)
    (a : List (String × Int)) (e c : ℚ) :
    ("username", Value.str u) ∈ consumptionData now u a e c :=
  List.mem_cons_self _ _

theorem mem_consumptionData_date (now : Nat) (u : String)
    (a : List (String × Int)) (e c : ℚ) :
    ("date", Value.date (dayOf now)) ∈ consumptionData now u a e c := by
  simp [consumptionData]

theorem mem_consumptionData_appliances (now : Nat) (u : String)
    (a : List (String × Int)) (e c : ℚ) :
    ("appliances", Value.dict a) ∈ consumptionData now u a e c := by
  simp [consumptionData]

theorem mem_consumptionData_energy (now : Nat) (u : String)
    (a : List (String × Int)) (e c : ℚ) :
    ("total_energy_kwh", Value.rat (round2 e)) ∈ consumptionData now u a e c := by
  simp [consumptionData]

theorem mem_consumptionData_cost (now : Nat) (u : String)
    (a : List (String × Int)) (e c : ℚ) :
    ("estimated_cost", Value.rat (round2 c)) ∈ consumptionData now u a e c := by
  simp [consumptionData]

theorem mem_consumptionData_timestamp (now : Nat) (u : String)
    (a : List (String × Int)) (e c : ℚ) :
    ("timestamp", Value.time now) ∈ consumptionData now u a e c := by
  simp [consumptionData]

theorem matchesB_consumptionData (u : String) (now : Nat)
    (a : List (String × Int)) (e c : ℚ) :
    matchesB u (dayOf now) (consumptionData now u a e c) = true := by
  simp [matchesB, consumptionData, Doc.get]

theorem get_cons_ne (kv : String × Value) (d : Doc) (k : String)
    (h : kv.1 ≠ k) : Doc.get (kv :: d) k = Doc.get d k := by
  simp [Doc.get, h]

theorem matchesB_cons_id (u : String) (day : Nat) (v : Value) (d : Doc) :
    matchesB u day (("_id", v) :: d) = matchesB u day d := by
  have h1 : Doc.get (("_id", v) :: d) "username" = Doc.get d "username" :=
    get_cons_ne ("_id", v) d "username" (by simp)
  have h2 : Doc.get (("_id", v) :: d) "date" = Doc.get d "date" :=
    get_cons_ne ("_id", v) d "date" (by simp)
  simp [matchesB, h1, h2]

theorem matchesB_applySet (u : String) (now : Nat)
    (a : List (String × Int)) (e c : ℚ) (d : Doc) :
    matchesB u (dayOf now) (applySet d (consumptionData now u a e c)) = true := by
  rw [matchesB,
    get_applySet_of_mem _ _ _ _ (consumptionData_keys_nodup now u a e c)
      (mem_consumptionData_username now u a e c),
    get_applySet_of_mem _ _ _ _ (consumptionData_keys_nodup now u a e c)
      (mem_consumptionData_date now u a e c)]
  simp

/-! ### Lemmas about the rate table and the energy sum -/

theorem rateOf_nonneg (k : String) (r : ℚ) (h : rateOf k = some r) : 0 ≤ r := by
  have hmem : r ∈ energy_rates.map Prod.snd := by
    unfold rateOf at h
    cases hf : energy_rates.find? (fun p => p.1 == k) with
    | none => rw [hf] at h; cases h
    | some pr =>
      rw [hf] at h
      simp only [Option.map_some', Option.some.injEq] at h
      exact h ▸ List.mem_map_of_mem Prod.snd (List.mem_of_find?_eq_some hf)
  have hval : r = 0.2 ∨ r = 0.2 ∨ r = 0.3 ∨ r = 3.0 ∨ r = 3.1 ∨ r = 2.8 := by
    simpa [energy_rates] using hmem
  rcases hval with h' | h' | h' | h' | h' | h' <;> rw [h'] <;> norm_num

theorem foldl_calcStep_init (apps : List (String × Int)) (i : ℚ) :
    apps.foldl calcStep i = i + apps.foldl calcStep 0 := by
  induction apps generalizing i with
  | nil => simp
  | cons p rest ih =>
    rw [List.foldl_cons, List.foldl_cons, ih (calcStep i p), ih (calcStep 0 p)]
    unfold calcStep
    cases rateOf p.1 <;> ring

theorem calc_nonneg (apps : List (String × Int))
    (h : ∀ p ∈ apps, 0 ≤ p.2) : 0 ≤ calculate_energy_consumption apps := by
  unfold calculate_energy_consumption
  induction apps with
  | nil => simp
  | cons p rest ih =>
    rw [List.foldl_cons, foldl_calcStep_init]
    have h1 : 0 ≤ calcStep 0 p := by
      unfold calcStep
      cases hr : rateOf p.1 with
      | none => simp
      | some r =>
        have hc : (0 : ℚ) ≤ (p.2 : ℚ) := by
          exact_mod_cast h p (List.mem_cons_self _ _)
        simpa using mul_nonneg hc (rateOf_nonneg _ _ hr)
    have h2 : 0 ≤ rest.foldl calcStep 0 :=
      ih (fun x hx => h x (List.mem_cons_of_mem _ hx))
    linarith

theorem calc_toDict (a : Appliances) :
    calculate_energy_consumption a.toDict =
      ((2 * a.lights + 2 * a.fans + 3 * a.tvs + 30 * a.ac + 31 * a.fridge +
        28 * a.washing_machine : ℤ) : ℚ) / 10 := by
  simp [calculate_energy_consumption, Appliances.toDict, calcStep, rateOf,
    energy_rates, List.find?]
  ring

/-! ### Rounding lemmas -/

theorem roundHalfToEven_intCast (m : ℤ) : roundHalfToEven (m : ℚ) = m := by
  unfold roundHalfToEven
  rw [Int.floor_intCast]
  norm_num

theorem round2_tenths (n : ℤ) : round2 ((n : ℚ) / 10) = (n : ℚ) / 10 := by
  unfold round2
  have h100 : (100 : ℚ) * ((n : ℚ) / 10) = ((10 * n : ℤ) : ℚ) := by
    push_cast; ring
  rw [h100, roundHalfToEven_intCast]
  push_cast; ring

/-! ### Upsert machinery -/

/-- MongoDB's `_id` uniqueness invariant on a collection. -/
def IdsDistinct (coll : List Doc) : Prop :=
  coll.Pairwise (fun d1 d2 => Doc.get d1 "_id" ≠ Doc.get d2 "_id")

theorem countFor_append (u : String) (day : Nat) (l1 l2 : List Doc) :
    countFor u day (l1 ++ l2) = countFor u day l1 + countFor u day l2 := by
  simp [countFor, List.filter_append]

theorem countFor_cons_true (u : String) (day : Nat) (d : Doc) (l : List Doc)
    (h : matchesB u day d = true) :
    countFor u day (d :: l) = countFor u day l + 1 := by
  simp [countFor, List.filter_cons, h, Nat.add_comm]

theorem countFor_cons_false (u : String) (day : Nat) (d : Doc) (l : List Doc)
    (h : matchesB u day d = false) :
    countFor u day (d :: l) = countFor u day l := by
  simp [countFor, List.filter_cons, h]

theorem countFor_eq_zero_iff (u : String) (day : Nat) (coll : List Doc) :
    countFor u day coll = 0 ↔ ∀ d ∈ coll, matchesB u day d = false := by
  simp [countFor, List.length_eq_zero, List.filter_eq_nil_iff]

theorem find?_matches_eq_none (u : String) (day : Nat) (coll : List Doc)
    (h : countFor u day coll = 0) : coll.find? (matchesB u day) = none := by
  rw [List.find?_eq_none]
  intro x hx hpx
  have := (countFor_eq_zero_iff u day coll).mp h x hx
  rw [this] at hpx
  cases hpx

theorem find?_matches_isSome_of_pos (u : String) (day : Nat) (coll : List Doc)
    (h : 0 < countFor u day coll) :
    ∃ ex, coll.find? (matchesB u day) = some ex := by
  cases hf : coll.find? (matchesB u day) with
  | some ex => exact ⟨ex, rfl⟩
  | none =>
    exfalso
    rw [List.find?_eq_none] at hf
    unfold countFor at h
    rcases List.exists_mem_of_ne_nil _ (List.length_pos.mp h) with ⟨x, hx⟩
    obtain ⟨hxc, hpx⟩ := List.mem_filter.mp hx
    exact hf x hxc hpx

/-- Insert branch: when no record for (username, today) exists, the save
appends the new document with a fresh `_id`. -/
theorem save_insert (now : Nat) (newId : Int) (u : String)
    (a : List (String × Int)) (e c : ℚ) (coll : List Doc)
    (h : countFor u (dayOf now) coll = 0) :
    save_consumption_data now newId u a e c coll =
      coll ++ [("_id", Value.int newId) :: consumptionData now u a e c] := by
  unfold save_consumption_data
  rw [find?_matches_eq_none _ _ _ h]

theorem matchesB_newdoc (u : String) (now : Nat) (newId : Int)
    (a : List (String × Int)) (e c : ℚ) :
    matchesB u (dayOf now) (("_id", Value.int newId) :: consumptionData now u a e c) = true := by
  rw [matchesB_cons_id]
  exact matchesB_consumptionData u now a e c

/-- Update branch: with distinct `_id`s, the save rewrites exactly the
first matching record via `$set` and leaves every other document alone. -/
theorem save_update_split (now : Nat) (newId : Int) (u : String)
    (a : List (String × Int)) (e c : ℚ) (coll : List Doc)
    (hid : IdsDistinct coll) (ex : Doc)
    (hfind : coll.find? (matchesB u (dayOf now)) = some ex) :
    ∃ l1 l2, coll = l1 ++ ex :: l2 ∧
      (∀ d ∈ l1, matchesB u (dayOf now) d = false) ∧
      matchesB u (dayOf now) ex = true ∧
      save_consumption_data now newId u a e c coll =
        l1 ++ applySet ex (consumptionData now u a e c) :: l2 := by
  obtain ⟨hpex, l1, l2, hsplit, hl1⟩ := List.find?_eq_some.mp hfind
  have hl1' : ∀ d ∈ l1, matchesB u (dayOf now) d = false := by
    intro d hd
    have := hl1 d hd
    simpa using this
  refine ⟨l1, l2, hsplit, hl1', hpex, ?_⟩
  unfold save_consumption_data
  rw [hfind]
  subst hsplit
  have hcross := (List.pairwise_append.mp hid).2.2
  have hl1id : ∀ d ∈ l1,
      (Doc.get d "_id" == Doc.get ex "_id") = false := by
    intro d hd
    exact beq_eq_false_iff_ne.mpr (hcross d hd ex (List.mem_cons_self _ _))
  show updateFirst (fun d => Doc.get d "_id" == Doc.get ex "_id")
      (fun d => applySet d (consumptionData now u a e c)) (l1 ++ ex :: l2) =
    l1 ++ applySet ex (consumptionData now u a e c) :: l2
  rw [updateFirst_append_of_not _ _ _ _ hl1id,
    updateFirst_cons_of_true _ _ _ _ (by simp)]

/-- Core count lemma: starting from at most one record for (username,
today), a save leaves exactly one. -/
theorem countFor_save (now : Nat) (newId : Int) (u : String)
    (a : List (String × Int)) (e c : ℚ) (coll : List Doc)
    (hid : IdsDistinct coll) (hle : countFor u (dayOf now) coll ≤ 1) :
    countFor u (dayOf now) (save_consumption_data now newId u a e c coll) = 1 := by
  cases h0 : countFor u (dayOf now) coll with
  | zero =>
    rw [save_insert _ _ _ _ _ _ _ h0, countFor_append, h0,
      countFor_cons_true _ _ _ _ (matchesB_newdoc u now newId a e c)]
    rfl
  | succ n =>
    obtain ⟨ex, hfind⟩ := find?_matches_isSome_of_pos u (dayOf now) coll
      (by omega)
    obtain ⟨l1, l2, hsplit, hl1, hex, hsave⟩ :=
      save_update_split now newId u a e c coll hid ex hfind
    have hl1z : countFor u (dayOf now) l1 = 0 :=
      (countFor_eq_zero_iff _ _ _).mpr hl1
    have hcount : countFor u (dayOf now) coll =
        countFor u (dayOf now) l1 + (countFor u (dayOf now) l2 + 1) := by
      rw [hsplit, countFor_append, countFor_cons_true _ _ _ _ hex]
    have hl2z : countFor u (dayOf now) l2 = 0 := by
      rw [h0] at hcount
      omega
    rw [hsave, countFor_append,
      countFor_cons_true _ _ _ _ (matchesB_applySet u now a e c ex), hl1z, hl2z]

/-! ### Day-consistency: every record written by a save has its date
field equal to the calendar day of its timestamp -/

/-- The date field of a record equals the calendar day of its timestamp
(records written by `save_consumption_data` always satisfy this). -/
def dayConsistent (d : Doc) : Prop :=
  Doc.get d "date" = some (Value.date (dayOf (tsOf d)))

theorem dayConsistent_applySet (now : Nat) (u : String)
    (a : List (String × Int)) (e c : ℚ) (d : Doc) :
    dayConsistent (applySet d (consumptionData now u a e c)) := by
  have hts : Doc.get (applySet d (consumptionData now u a e c)) "timestamp" =
      some (Value.time now) :=
    get_applySet_of_mem _ _ _ _ (consumptionData_keys_nodup now u a e c)
      (mem_consumptionData_timestamp now u a e c)
  have hdt : Doc.get (applySet d (consumptionData now u a e c)) "date" =
      some (Value.date (dayOf now)) :=
    get_applySet_of_mem _ _ _ _ (consumptionData_keys_nodup now u a e c)
      (mem_consumptionData_date now u a e c)
  simp [dayConsistent, tsOf, hts, hdt]

theorem dayConsistent_newdoc (now : Nat) (newId : Int) (u : String)
    (a : List (String × Int)) (e c : ℚ) :
    dayConsistent (("_id", Value.int newId) :: consumptionData now u a e c) := by
  have hts : Doc.get (("_id", Value.int newId) :: consumptionData now u a e c)
      "timestamp" = some (Value.time now) := by
    rw [get_cons_ne _ _ _ (by simp)]
    rfl
  have hdt : Doc.get (("_id", Value.int newId) :: consumptionData now u a e c)
      "date" = some (Value.date (dayOf now)) := by
    rw [get_cons_ne _ _ _ (by simp)]
    rfl
  simp [dayConsistent, tsOf, hts, hdt]

theorem dayConsistent_save (now : Nat) (newId : Int) (u : String)
    (a : List (String × Int)) (e c : ℚ) (coll : List Doc)
    (h : ∀ d ∈ coll, dayConsistent d) :
    ∀ d ∈ save_consumption_data now newId u a e c coll, dayConsistent d := by
  intro d hd
  unfold save_consumption_data at hd
  cases hfind : coll.find? (matchesB u (dayOf now)) with
  | none =>
    rw [hfind] at hd
    rcases List.mem_append.mp hd with h' | h'
    · exact h d h'
    · rcases List.mem_singleton.mp h' with rfl
      exact dayConsistent_newdoc now newId u a e c
  | some ex =>
    rw [hfind] at hd
    rcases mem_updateFirst _ _ _ _ hd with h' | ⟨e', _, rfl⟩
    · exact h d h'
    · exact dayConsistent_applySet now u a e c e'

/-! ### Retrieval machinery -/

theorem get_fail_eq (now : Nat) (u : String) (days : Nat) (coll : List Doc) :
    get_user_consumption_data now u days true true coll = ⟨[], true⟩ := rfl

theorem get_noDb_eq (now : Nat) (u : String) (days : Nat) (fail : Bool)
    (coll : List Doc) :
    get_user_consumption_data now u days false fail coll = ⟨[], false⟩ := rfl

theorem records_eq (now : Nat) (u : String) (days : Nat) (coll : List Doc) :
    (get_user_consumption_data now u days true false coll).records =
      (coll.filter (fun d =>
        (Doc.get d "username" == some (Value.str u)) &&
          tsGe (now - days * minutesPerDay) d)).mergeSort
        (fun d1 d2 => decide (tsOf d1 ≤ tsOf d2)) := rfl

theorem mem_records_iff (now : Nat) (u : String) (days : Nat)
    (coll : List Doc) (d : Doc) :
    d ∈ (get_user_consumption_data now u days true false coll).records ↔
      d ∈ coll ∧ Doc.get d "username" = some (Value.str u) ∧
        tsGe (now - days * minutesPerDay) d = true := by
  rw [records_eq, List.mem_mergeSort, List.mem_filter]
  simp [and_assoc]

theorem records_sorted_ts (now : Nat) (u : String) (days : Nat)
    (coll : List Doc) :
    ((get_user_consumption_data now u days true false coll).records).Pairwise
      (fun d1 d2 => tsOf d1 ≤ tsOf d2) := by
  rw [records_eq]
  have h : ((coll.filter (fun d =>
      (Doc.get d "username" == some (Value.str u)) &&
        tsGe (now - days * minutesPerDay) d)).mergeSort
      (fun d1 d2 => decide (tsOf d1 ≤ tsOf d2))).Pairwise
      (fun d1 d2 => decide (tsOf d1 ≤ tsOf d2) = true) := by
    apply List.sorted_mergeSort
    · intro x y z h1 h2
      simp only [decide_eq_true_eq] at h1 h2 ⊢
      omega
    · intro x y
      simpa using Nat.le_total (tsOf x) (tsOf y)
  exact h.imp (fun hab => by simpa using hab)

theorem find?_append_of_none (p : Doc → Bool) (l1 l2 : List Doc)
    (h : ∀ d ∈ l1, p d = false) : (l1 ++ l2).find? p = l2.find? p := by
  induction l1 with
  | nil => rfl
  | cons d rest ih =>
    have hd := h d (List.mem_cons_self _ _)
    simp [List.find?_cons, hd, ih (fun x hx => h x (List.mem_cons_of_mem _ hx))]

theorem tsGe_eq_true_iff (start : Nat) (d : Doc) :
    tsGe start d = true ↔
      ∃ t, Doc.get d "timestamp" = some (Value.time t) ∧ start ≤ t := by
  unfold tsGe
  cases hg : Doc.get d "timestamp" with
  | none => simp
  | some v =>
    cases v <;> simp

/-! ## Claims -/

/-- C2 (counterexample): `calculate_energy_consumption` does not fail on
a negative count — on the mapping with lights = -1 it silently returns
the ordinary value -0.2, so the claimed `InvalidInput` failure on
negative counts does not exist in the code. -/
theorem calc_accepts_negative_count :
    calculate_energy_consumption [("lights", -1)] = -(0.2 : ℚ) := by
  simp [calculate_energy_consumption, calcStep, rateOf, energy_rates, List.find?]

/-- C2 (amended): `calculate_energy_consumption` is a deterministic
total function on every appliance-count mapping; it never signals any
error, and on mappings with all counts non-negative its value is
non-negative (negative counts are accepted silently and merely produce
a negative total). -/
theorem calc_total_and_nonneg (appliances : List (String × Int))
    (h : ∀ p ∈ appliances, 0 ≤ p.2) :
    0 ≤ calculate_energy_consumption appliances :=
  calc_nonneg appliances h

/-- Witness for C2's amended theorem at a concrete input. -/
theorem calc_total_and_nonneg_witness :
    (∀ p ∈ [("lights", (2 : Int)), ("ac", 1)], 0 ≤ p.2) ∧
      0 ≤ calculate_energy_consumption [("lights", 2), ("ac", 1)] :=
  ⟨by decide, calc_total_and_nonneg [("lights", 2), ("ac", 1)] (by decide)⟩

/-- C8: on the appliance vector {lights 5, fans 2, tvs 1, ac 1,
fridge 1, washing_machine 0} the fixed rate table {0.2, 0.2, 0.3, 3.0,
3.1, 2.8} yields 7.8 kWh, and the cost at the fixed tariff 8 is 62.40
(also after the 2-decimal rounding applied when the record is saved). -/
theorem example_vector_energy_and_cost :
    energy_rates = [("lights", 0.2), ("fans", 0.2), ("tvs", 0.3),
      ("ac", 3.0), ("fridge", 3.1), ("washing_machine", 2.8)] ∧
    (Appliances.mk 5 2 1 1 1 0).toDict =
      [("lights", 5), ("fans", 2), ("tvs", 1), ("ac", 1), ("fridge", 1),
        ("washing_machine", 0)] ∧
    calculate_energy_consumption (Appliances.mk 5 2 1 1 1 0).toDict = 7.8 ∧
    calculate_energy_consumption (Appliances.mk 5 2 1 1 1 0).toDict *
      rate_per_unit = 62.40 ∧
    round2 (7.8 : ℚ) = 7.8 ∧ round2 (62.40 : ℚ) = 62.40 := by
  refine ⟨rfl, rfl, ?_, ?_, ?_, ?_⟩
  · simp [calculate_energy_consumption, Appliances.toDict, calcStep, rateOf,
      energy_rates, List.find?]
    norm_num
  · simp [calculate_energy_consumption, Appliances.toDict, calcStep, rateOf,
      energy_rates, List.find?, rate_per_unit]
    norm_num
  · norm_num [round2, roundHalfToEven]
  · norm_num [round2, roundHalfToEven]

/-- C10: the energy sum is additive in the appliance-count vector, and
increasing any single count by a non-negative amount never decreases it
(every rate in the fixed table is non-negative). -/
theorem calc_additive_and_monotone :
    (∀ x y : Appliances,
      calculate_energy_consumption (x.add y).toDict =
        calculate_energy_consumption x.toDict +
          calculate_energy_consumption y.toDict) ∧
    (∀ (x : Appliances) (k : ApplianceKind) (d : Int), 0 ≤ d →
      calculate_energy_consumption x.toDict ≤
        calculate_energy_consumption (x.incr k d).toDict) := by
  constructor
  · intro x y
    rw [calc_toDict, calc_toDict, calc_toDict]
    simp only [Appliances.add]
    push_cast
    ring
  · intro x k d hd
    have hd' : (0 : ℚ) ≤ ((d : ℤ) : ℚ) := by exact_mod_cast hd
    cases k <;>
      (rw [calc_toDict, calc_toDict,
        div_le_div_iff_of_pos_right (by norm_num : (0 : ℚ) < 10)]
       simp only [Appliances.incr]
       push_cast
       linarith)

/-- Witness for C10 at a concrete input. -/
theorem calc_additive_and_monotone_witness :
    ((0 : Int) ≤ 3) ∧
      calculate_energy_consumption ((Appliances.mk 1 1 0 0 0 0).incr
        ApplianceKind.ac 3).toDict ≥
        calculate_energy_consumption (Appliances.mk 1 1 0 0 0 0).toDict :=
  ⟨by decide,
    calc_additive_and_monotone.2 (Appliances.mk 1 1 0 0 0 0)
      ApplianceKind.ac 3 (by decide)⟩

/-- C4: for every non-negative appliance vector the pipeline of
`show_energy_input_form` (energy := the rate-table sum, cost := energy
times the fixed tariff 8) stores `total_energy_kwh = round2 energy` and
`estimated_cost = round2 (round2 energy * 8)`: since the energy sum is
an exact multiple of 0.1, rounding the cost of the unrounded energy (as
the code does) and rounding the cost of the stored, rounded energy (as
the spec words it) coincide, so the stated rounding order holds. -/
theorem pipeline_cost_rounding (a : Appliances) (now : Nat) (u : String)
    (_hnn : 0 ≤ a.lights ∧ 0 ≤ a.fans ∧ 0 ≤ a.tvs ∧ 0 ≤ a.ac ∧
      0 ≤ a.fridge ∧ 0 ≤ a.washing_machine) :
    Doc.get (consumptionData now u a.toDict
        (calculate_energy_consumption a.toDict)
        (calculate_energy_consumption a.toDict * rate_per_unit))
      "total_energy_kwh" =
      some (Value.rat (round2 (calculate_energy_consumption a.toDict))) ∧
    Doc.get (consumptionData now u a.toDict
        (calculate_energy_consumption a.toDict)
        (calculate_energy_consumption a.toDict * rate_per_unit))
      "estimated_cost" =
      some (Value.rat (round2 (round2 (calculate_energy_consumption a.toDict) *
        rate_per_unit))) := by
  have hE : round2 (calculate_energy_consumption a.toDict) =
      calculate_energy_consumption a.toDict := by
    rw [calc_toDict]
    exact round2_tenths _
  refine ⟨rfl, ?_⟩
  rw [hE]
  rfl

/-- Witness for C4 at a concrete input. -/
theorem pipeline_cost_rounding_witness :
    ((0 : Int) ≤ 5 ∧ (0 : Int) ≤ 2 ∧ (0 : Int) ≤ 1 ∧ (0 : Int) ≤ 1 ∧
      (0 : Int) ≤ 1 ∧ (0 : Int) ≤ 0) ∧
    Doc.get (consumptionData 0 "a" (Appliances.mk 5 2 1 1 1 0).toDict
        (calculate_energy_consumption (Appliances.mk 5 2 1 1 1 0).toDict)
        (calculate_energy_consumption (Appliances.mk 5 2 1 1 1 0).toDict *
          rate_per_unit))
      "estimated_cost" =
      some (Value.rat (round2 (round2 (calculate_energy_consumption
        (Appliances.mk 5 2 1 1 1 0).toDict) * rate_per_unit))) :=
  ⟨by decide,
    (pipeline_cost_rounding (Appliances.mk 5 2 1 1 1 0) 0 "a" (by decide)).2⟩

/-- C1: the upsert keeps at most one consumption record per (username,
date) pair.  First conjunct: starting from a collection with distinct
MongoDB `_id`s holding at most one record for (username, today), a save
leaves exactly one.  Second conjunct: two saves on the same day starting
from no record for the pair leave exactly one record, an update in
place of the first call's document, holding the second call's
appliances, total_energy_kwh and estimated_cost values. -/
theorem upsert_unique_and_last_write_wins :
    (∀ (now : Nat) (newId : Int) (u : String) (a : List (String × Int))
        (e c : ℚ) (coll : List Doc),
      IdsDistinct coll → countFor u (dayOf now) coll ≤ 1 →
      countFor u (dayOf now)
        (save_consumption_data now newId u a e c coll) = 1) ∧
    (∀ (now : Nat) (id1 id2 : Int) (u : String)
        (a1 a2 : List (String × Int)) (e1 c1 e2 c2 : ℚ) (coll : List Doc),
      countFor u (dayOf now) coll = 0 →
      (∀ d ∈ coll, Doc.get d "_id" ≠ some (Value.int id1)) →
      ∃ rec,
        save_consumption_data now id2 u a2 e2 c2
          (save_consumption_data now id1 u a1 e1 c1 coll) = coll ++ [rec] ∧
        countFor u (dayOf now) (coll ++ [rec]) = 1 ∧
        Doc.get rec "appliances" = some (Value.dict a2) ∧
        Doc.get rec "total_energy_kwh" = some (Value.rat (round2 e2)) ∧
        Doc.get rec "estimated_cost" = some (Value.rat (round2 c2))) := by
  constructor
  · intro now newId u a e c coll hid hle
    exact countFor_save now newId u a e c coll hid hle
  · intro now id1 id2 u a1 a2 e1 c1 e2 c2 coll h0 hfresh
    have h1 : save_consumption_data now id1 u a1 e1 c1 coll =
        coll ++ [("_id", Value.int id1) :: consumptionData now u a1 e1 c1] :=
      save_insert now id1 u a1 e1 c1 coll h0
    refine ⟨applySet (("_id", Value.int id1) :: consumptionData now u a1 e1 c1)
      (consumptionData now u a2 e2 c2), ?_, ?_, ?_, ?_, ?_⟩
    · rw [h1]
      have hfind : (coll ++
          [("_id", Value.int id1) :: consumptionData now u a1 e1 c1]).find?
            (matchesB u (dayOf now)) =
          some (("_id", Value.int id1) :: consumptionData now u a1 e1 c1) := by
        rw [find?_append_of_none _ _ _ ((countFor_eq_zero_iff _ _ _).mp h0)]
        exact List.find?_cons_of_pos _ (matchesB_newdoc u now id1 a1 e1 c1)
      unfold save_consumption_data
      rw [hfind]
      show updateFirst
          (fun d => Doc.get d "_id" ==
            Doc.get (("_id", Value.int id1) :: consumptionData now u a1 e1 c1)
              "_id")
          (fun d => applySet d (consumptionData now u a2 e2 c2))
          (coll ++ [("_id", Value.int id1) :: consumptionData now u a1 e1 c1]) =
        _
      have hq : ∀ d ∈ coll,
          (Doc.get d "_id" ==
            Doc.get (("_id", Value.int id1) :: consumptionData now u a1 e1 c1)
              "_id") = false := by
        intro d hd
        exact beq_eq_false_iff_ne.mpr (hfresh d hd)
      rw [updateFirst_append_of_not _ _ _ _ hq]
      congr 1
      exact updateFirst_cons_of_true _ _ _ _ (by simp)
    · rw [countFor_append, h0,
        countFor_cons_true _ _ _ _ (matchesB_applySet u now a2 e2 c2 _)]
      rfl
    · exact get_applySet_of_mem _ _ _ _
        (consumptionData_keys_nodup now u a2 e2 c2)
        (mem_consumptionData_appliances now u a2 e2 c2)
    · exact get_applySet_of_mem _ _ _ _
        (consumptionData_keys_nodup now u a2 e2 c2)
        (mem_consumptionData_energy now u a2 e2 c2)
    · exact get_applySet_of_mem _ _ _ _
        (consumptionData_keys_nodup now u a2 e2 c2)
        (mem_consumptionData_cost now u a2 e2 c2)

/-- Witness for C1 at concrete inputs. -/
theorem upsert_unique_and_last_write_wins_witness :
    (IdsDistinct ([] : List Doc) ∧
      countFor "a" (dayOf 0) ([] : List Doc) ≤ 1 ∧
      countFor "a" (dayOf 0)
        (save_consumption_data 0 1 "a" [] 0 0 []) = 1) ∧
    (countFor "a" (dayOf 0) ([] : List Doc) = 0 ∧
      ∃ rec,
        save_consumption_data 0 2 "a" [("lights", 2)] 1.0 8.0
          (save_consumption_data 0 1 "a" [("lights", 1)] 0.2 1.6 []) =
            [] ++ [rec] ∧
        countFor "a" (dayOf 0) ([] ++ [rec]) = 1 ∧
        Doc.get rec "appliances" = some (Value.dict [("lights", 2)]) ∧
        Doc.get rec "total_energy_kwh" = some (Value.rat (round2 1.0)) ∧
        Doc.get rec "estimated_cost" = some (Value.rat (round2 8.0))) :=
  ⟨⟨List.Pairwise.nil, by decide,
      upsert_unique_and_last_write_wins.1 0 1 "a" [] 0 0 []
        List.Pairwise.nil (by decide)⟩,
    rfl,
    upsert_unique_and_last_write_wins.2 0 1 2 "a" [("lights", 1)]
      [("lights", 2)] 0.2 1.6 1.0 8.0 [] rfl (by decide)⟩

/-- C9: when a record for (username, today) already exists (and `_id`s
are distinct), the save rewrites that document in place: the collection
keeps its shape with only that document replaced, the replacement keeps
the original `_id` and every field not named in the update data, and
carries exactly the new values for the fields that are named. -/
theorem upsert_in_place_frame :
    ∀ (now : Nat) (newId : Int) (u : String) (a : List (String × Int))
      (e c : ℚ) (coll : List Doc),
    IdsDistinct coll → countFor u (dayOf now) coll = 1 →
    ∃ l1 rec l2, coll = l1 ++ rec :: l2 ∧
      matchesB u (dayOf now) rec = true ∧
      save_consumption_data now newId u a e c coll =
        l1 ++ applySet rec (consumptionData now u a e c) :: l2 ∧
      Doc.get (applySet rec (consumptionData now u a e c)) "_id" =
        Doc.get rec "_id" ∧
      (∀ k, k ∉ (consumptionData now u a e c).map Prod.fst →
        Doc.get (applySet rec (consumptionData now u a e c)) k =
          Doc.get rec k) ∧
      (∀ k v, (k, v) ∈ consumptionData now u a e c →
        Doc.get (applySet rec (consumptionData now u a e c)) k = some v) := by
  intro now newId u a e c coll hid hcount
  obtain ⟨ex, hfind⟩ := find?_matches_isSome_of_pos u (dayOf now) coll
    (by omega)
  obtain ⟨l1, l2, hsplit, hl1, hex, hsave⟩ :=
    save_update_split now newId u a e c coll hid ex hfind
  refine ⟨l1, ex, l2, hsplit, hex, hsave, ?_, ?_, ?_⟩
  · exact get_applySet_of_notMem _ _ _ (by rw [consumptionData_keys]; decide)
  · intro k hk
    exact get_applySet_of_notMem _ _ _ hk
  · intro k v hkv
    exact get_applySet_of_mem _ _ _ _
      (consumptionData_keys_nodup now u a e c) hkv

/-- Witness for C9 at a concrete one-record collection. -/
theorem upsert_in_place_frame_witness :
    (IdsDistinct [("_id", Value.int 1) :: consumptionData 0 "a" [] 0 0] ∧
      countFor "a" (dayOf 0)
        [("_id", Value.int 1) :: consumptionData 0 "a" [] 0 0] = 1) ∧
    (∃ l1 rec l2,
      [("_id", Value.int 1) :: consumptionData 0 "a" [] 0 0] =
        l1 ++ rec :: l2 ∧
      matchesB "a" (dayOf 0) rec = true ∧
      save_consumption_data 0 2 "a" [("fans", 4)] 0.8 6.4
          [("_id", Value.int 1) :: consumptionData 0 "a" [] 0 0] =
        l1 ++ applySet rec (consumptionData 0 "a" [("fans", 4)] 0.8 6.4) :: l2 ∧
      Doc.get (applySet rec (consumptionData 0 "a" [("fans", 4)] 0.8 6.4))
        "_id" = Doc.get rec "_id" ∧
      (∀ k, k ∉ (consumptionData 0 "a" [("fans", 4)] 0.8 6.4).map Prod.fst →
        Doc.get (applySet rec (consumptionData 0 "a" [("fans", 4)] 0.8 6.4))
          k = Doc.get rec k) ∧
      (∀ k v, (k, v) ∈ consumptionData 0 "a" [("fans", 4)] 0.8 6.4 →
        Doc.get (applySet rec (consumptionData 0 "a" [("fans", 4)] 0.8 6.4))
          k = some v)) :=
  ⟨⟨List.pairwise_singleton _ _, by decide⟩,
    upsert_in_place_frame 0 2 "a" [("fans", 4)] 0.8 6.4
      [("_id", Value.int 1) :: consumptionData 0 "a" [] 0 0]
      (List.pairwise_singleton _ _) (by decide)⟩

/-- C7 (counterexample): a persisted consumption record does not have
exactly the six claimed fields — the record written by a save also
carries a `timestamp` field (and the MongoDB `_id`), which is not among
{username, date, day_of_week, appliances, total_energy_kwh,
estimated_cost}. -/
theorem persisted_record_extra_field :
    save_consumption_data 0 1 "alice" [] 0 0 [] =
      [("_id", Value.int 1) :: consumptionData 0 "alice" [] 0 0] ∧
    "timestamp" ∈
      Doc.keys (("_id", Value.int 1) :: consumptionData 0 "alice" [] 0 0) ∧
    "timestamp" ∉ ["username", "date", "day_of_week", "appliances",
      "total_energy_kwh", "estimated_cost"] :=
  ⟨rfl, by decide, by decide⟩

/-- C7 (amended): every record persisted by the upsert — freshly
inserted or overwritten in place — has exactly the fields _id,
username, date, day_of_week, timestamp, appliances, total_energy_kwh,
estimated_cost: the six claimed fields plus the `timestamp` written by
the code and the MongoDB `_id`.  First conjunct: the inserted record
has exactly these keys and its appliances subdocument is exactly the
mapping passed in.  Second conjunct: on a collection whose records all
have these keys (the reachable states, by the first conjunct), a save
leaves every record — including the one rewritten by the update branch
— with exactly these keys, since `$set` replaces the seven data fields
in place.  Third conjunct: the input form's appliance mapping carries
exactly the six claimed appliance keys. -/
theorem persisted_record_field_shape :
    (∀ (now : Nat) (newId : Int) (u : String) (a : List (String × Int))
        (e c : ℚ) (coll : List Doc),
      countFor u (dayOf now) coll = 0 →
      ∃ rec, save_consumption_data now newId u a e c coll = coll ++ [rec] ∧
        Doc.keys rec = ["_id", "username", "date", "day_of_week",
          "timestamp", "appliances", "total_energy_kwh", "estimated_cost"] ∧
        Doc.get rec "appliances" = some (Value.dict a)) ∧
    (∀ (now : Nat) (newId : Int) (u : String) (a : List (String × Int))
        (e c : ℚ) (coll : List Doc),
      (∀ d ∈ coll, Doc.keys d = ["_id", "username", "date", "day_of_week",
        "timestamp", "appliances", "total_energy_kwh", "estimated_cost"]) →
      ∀ d ∈ save_consumption_data now newId u a e c coll,
        Doc.keys d = ["_id", "username", "date", "day_of_week",
          "timestamp", "appliances", "total_energy_kwh", "estimated_cost"]) ∧
    (∀ av : Appliances, (Appliances.toDict av).map Prod.fst =
      ["lights", "fans", "tvs", "ac", "fridge", "washing_machine"]) := by
  refine ⟨?_, ?_, ?_⟩
  · intro now newId u a e c coll h0
    exact ⟨("_id", Value.int newId) :: consumptionData now u a e c,
      save_insert now newId u a e c coll h0, rfl, rfl⟩
  · intro now newId u a e c coll hcoll d hd
    unfold save_consumption_data at hd
    cases hfind : coll.find? (matchesB u (dayOf now)) with
    | none =>
      rw [hfind] at hd
      rcases List.mem_append.mp hd with h' | h'
      · exact hcoll d h'
      · rcases List.mem_singleton.mp h' with rfl
        rfl
    | some ex =>
      rw [hfind] at hd
      rcases mem_updateFirst _ _ _ _ hd with h' | ⟨e', he', rfl⟩
      · exact hcoll d h'
      · have hsub : ∀ k ∈ (consumptionData now u a e c).map Prod.fst,
            k ∈ Doc.keys e' := by
          intro k hk
          rw [consumptionData_keys] at hk
          rw [hcoll e' he']
          fin_cases hk <;> decide
        rw [keys_applySet_of_subset _ _ hsub, hcoll e' he']
  · intro av
    rfl

/-- Witness for C7's amended theorem at concrete inputs, exercising
both the insert branch and the update branch. -/
theorem persisted_record_field_shape_witness :
    (countFor "a" (dayOf 5) ([] : List Doc) = 0 ∧
      (∃ rec, save_consumption_data 5 7 "a" [("lights", 3)] 0.6 4.8 [] =
          [] ++ [rec] ∧
        Doc.keys rec = ["_id", "username", "date", "day_of_week",
          "timestamp", "appliances", "total_energy_kwh", "estimated_cost"] ∧
        Doc.get rec "appliances" = some (Value.dict [("lights", 3)]))) ∧
    ((∀ d ∈ [("_id", Value.int 1) :: consumptionData 0 "a" [] 0 0],
        Doc.keys d = ["_id", "username", "date", "day_of_week",
          "timestamp", "appliances", "total_energy_kwh", "estimated_cost"]) ∧
      ∀ d ∈ save_consumption_data 0 2 "a" [("fans", 4)] 0.8 6.4
          [("_id", Value.int 1) :: consumptionData 0 "a" [] 0 0],
        Doc.keys d = ["_id", "username", "date", "day_of_week",
          "timestamp", "appliances", "total_energy_kwh", "estimated_cost"]) :=
  ⟨⟨rfl, persisted_record_field_shape.1 5 7 "a" [("lights", 3)] 0.6 4.8 []
      rfl⟩,
    by decide,
    persisted_record_field_shape.2.1 0 2 "a" [("fans", 4)] 0.8 6.4
      [("_id", Value.int 1) :: consumptionData 0 "a" [] 0 0] (by decide)⟩

/-- C3 (counterexample): with windowDays = 0 the retrieval does not
return today's record when one exists — at time 1 (calendar day 0) the
collection holds the record for user "a" dated day 0 (written at time
0), yet the returned sequence is empty, because the code filters on
`timestamp ≥ now`, not on the calendar date. -/
theorem getRange_zero_misses_today :
    Doc.get todayRecordDoc "username" = some (Value.str "a") ∧
    Doc.get todayRecordDoc "date" = some (Value.date (dayOf 1)) ∧
    (get_user_consumption_data 1 "a" 0 true false [todayRecordDoc]).records =
      [] := by
  refine ⟨rfl, rfl, ?_⟩
  simp [get_user_consumption_data, todayRecordDoc, consumptionData, Doc.get,
    tsGe, minutesPerDay, List.mergeSort]

/-- C3 (amended): with windowDays = 0 the retrieval at time `now`
returns exactly the user's records whose timestamp is at least `now`;
a record for today saved strictly before `now` is omitted, so the
result is empty unless a record's timestamp reaches the query time. -/
theorem getRange_zero_returns_only_ts_ge_now :
    ∀ (now : Nat) (u : String) (coll : List Doc) (d : Doc),
      d ∈ (get_user_consumption_data now u 0 true false coll).records ↔
        d ∈ coll ∧ Doc.get d "username" = some (Value.str u) ∧
          ∃ t, Doc.get d "timestamp" = some (Value.time t) ∧ now ≤ t := by
  intro now u coll d
  rw [mem_records_iff]
  simp [tsGe_eq_true_iff]

/-- C5: the sequence returned by the retrieval is non-decreasing by
date.  First conjunct: every record written by a save has its date
field equal to the calendar day of its timestamp (so the hypothesis of
the second conjunct holds on every reachable collection).  Second
conjunct: on such a collection the returned sequence, sorted by
timestamp, is non-decreasing by date — the position of a record is
fixed by its date, not by when it was written, since each record's
timestamp lies inside its own calendar day. -/
theorem getRange_sorted_by_date :
    (∀ (now : Nat) (newId : Int) (u : String) (a : List (String × Int))
        (e c : ℚ) (coll : List Doc),
      (∀ d ∈ coll, dayConsistent d) →
      ∀ d ∈ save_consumption_data now newId u a e c coll, dayConsistent d) ∧
    (∀ (now : Nat) (u : String) (days : Nat) (coll : List Doc),
      (∀ d ∈ coll, dayConsistent d) →
      ((get_user_consumption_data now u days true false coll).records).Pairwise
        (fun d1 d2 => dateOf d1 ≤ dateOf d2)) := by
  constructor
  · exact fun now newId u a e c coll h =>
      dayConsistent_save now newId u a e c coll h
  · intro now u days coll hcons
    refine List.Pairwise.imp_of_mem ?_ (records_sorted_ts now u days coll)
    intro d1 d2 h1 h2 hle
    have hc1 : dayConsistent d1 :=
      hcons d1 ((mem_records_iff now u days coll d1).mp h1).1
    have hc2 : dayConsistent d2 :=
      hcons d2 ((mem_records_iff now u days coll d2).mp h2).1
    have hc1' : Doc.get d1 "date" = some (Value.date (dayOf (tsOf d1))) := hc1
    have hc2' : Doc.get d2 "date" = some (Value.date (dayOf (tsOf d2))) := hc2
    have e1 : dateOf d1 = dayOf (tsOf d1) := by simp [dateOf, hc1']
    have e2 : dateOf d2 = dayOf (tsOf d2) := by simp [dateOf, hc2']
    rw [e1, e2]
    exact Nat.div_le_div_right hle

/-- Witness for C5 at concrete inputs. -/
theorem getRange_sorted_by_date_witness :
    (∀ d ∈ ([] : List Doc), dayConsistent d) ∧
    (∀ d ∈ save_consumption_data 0 1 "a" [] 0 0 [], dayConsistent d) ∧
    ((get_user_consumption_data 0 "a" 0 true false
      ([] : List Doc)).records).Pairwise
        (fun d1 d2 => dateOf d1 ≤ dateOf d2) :=
  ⟨by simp, getRange_sorted_by_date.1 0 1 "a" [] 0 0 [] (by simp),
    getRange_sorted_by_date.2 0 "a" 0 [] (by simp)⟩

/-- C6 (counterexample): a data-access failure is not reported to the
caller as a value distinct from the empty result — on failure the
function returns the same empty list it returns when no data exists,
even though the collection held a record the successful call would
return, so the caller cannot distinguish "nothing to show" from
"operation failed" by the returned value. -/
theorem getRange_failure_equals_empty :
    (get_user_consumption_data 20000 "a" 7 true true
      [windowRecordDoc]).records = [] ∧
    (get_user_consumption_data 20000 "a" 7 true false
      ([] : List Doc)).records = [] ∧
    (get_user_consumption_data 20000 "a" 7 true false
      [windowRecordDoc]).records = [windowRecordDoc] := by
  refine ⟨rfl, ?_, ?_⟩
  · simp [get_user_consumption_data, List.mergeSort]
  · simp [get_user_consumption_data, windowRecordDoc, consumptionData,
      Doc.get, tsGe, minutesPerDay, List.mergeSort]

/-- C6 (amended): the retrieval returns the empty sequence (with no
error message) when no records match, and on a data-access failure it
also returns the empty sequence — the failure is signalled only through
the displayed UI error message, not through the value handed to the
caller, so no distinct DatabaseError reaches the caller. -/
theorem getRange_empty_vs_failure :
    ∀ (now : Nat) (u : String) (days : Nat) (coll : List Doc),
      (get_user_consumption_data now u days true true coll).records = [] ∧
      (get_user_consumption_data now u days true true coll).errorShown =
        true ∧
      ((∀ d ∈ coll, Doc.get d "username" ≠ some (Value.str u)) →
        (get_user_consumption_data now u days true false coll).records = [] ∧
        (get_user_consumption_data now u days true false coll).errorShown =
          false) := by
  intro now u days coll
  refine ⟨rfl, rfl, ?_⟩
  intro hnone
  refine ⟨?_, rfl⟩
  rw [records_eq]
  have hfil : coll.filter (fun d =>
      (Doc.get d "username" == some (Value.str u)) &&
        tsGe (now - days * minutesPerDay) d) = [] := by
    rw [List.filter_eq_nil_iff]
    intro d hd
    simp [hnone d hd]
  rw [hfil]
  simp [List.mergeSort]

/-- Witness for C6's amended theorem at concrete inputs. -/
theorem getRange_empty_vs_failure_witness :
    (∀ d ∈ ([] : List Doc), Doc.get d "username" ≠ some (Value.str "a")) ∧
    (get_user_consumption_data 0 "a" 7 true true ([] : List Doc)).records =
      [] ∧
    (get_user_consumption_data 0 "a" 7 true false ([] : List Doc)).records =
      [] ∧
    (get_user_consumption_data 0 "a" 7 true false
      ([] : List Doc)).errorShown = false :=
  ⟨by simp, (getRange_empty_vs_failure 0 "a" 7 []).1,
    ((getRange_empty_vs_failure 0 "a" 7 []).2.2 (by simp)).1,
    ((getRange_empty_vs_failure 0 "a" 7 []).2.2 (by simp)).2⟩

end EnergyTracker
